import Mathlib

/-!
Shallow embedding of the ForgeBlock account backend (src/server.js):
the token lifecycle (generateToken / verifyToken), the session endpoints
(register, login, verify, logout, change-username) and the game-server
endpoints (game-auth, save-player), over an explicit relational store
mirroring the users and player_data tables.  Timestamps are naturals
(milliseconds); JWT payloads are modelled as a structure carrying the
signed fields plus the signing key, with token equality standing for
string equality of the encoded tokens.
-/

/-- JWT payload as produced by generateToken: userId, username, iat,
signed with a secret key; the key field models which secret signed it. -/
structure Token where
  userId : Nat
  username : String
  iat : Nat
  key : Nat
deriving DecidableEq

/-- One day in milliseconds. -/
def dayMs : Nat := 24 * 60 * 60 * 1000

/-- The fixed cryptographic validity window of every issued token
(jwt.sign with expiresIn of 30 days, independent of remember). -/
def cryptoWindowMs : Nat := 30 * dayMs

/-- generateToken(userId, username): jwt.sign({userId, username, iat}, secret, 30d). -/
def generateToken (key userId : Nat) (username : String) (now : Nat) : Token :=
  { userId := userId, username := username, iat := now, key := key }

/-- verifyToken(token): jwt.verify — signature check against the server
key plus the token's own embedded expiry; returns the decoded payload or
none. -/
def verifyToken (key now : Nat) (t : Token) : Option Token :=
  if t.key = key ∧ now < t.iat + cryptoWindowMs then some t else none

/-- bcrypt.hash modelled as an injective opaque one-way function. -/
def hashPw (p : String) : String := "bcrypt$" ++ p

/-- bcrypt.compare(password, hash). -/
def bcryptCompare (p h : String) : Bool := hashPw p == h

/-- ASCII lowercasing, modelling both SQL LOWER and JavaScript
toLowerCase as used on usernames and emails. -/
def lowerStr (s : String) : String := ⟨s.data.map Char.toLower⟩

/-- Username rule from isValidUsername: 3 to 24 chars, ASCII letters,
digits and underscore only. -/
def isValidUsername (u : String) : Bool :=
  decide (3 ≤ u.length) && decide (u.length ≤ 24) &&
    u.toList.all (fun c => c.isAlpha || c.isDigit || c == '_')

/-- Email format check from the register handler: no whitespace, exactly
one at-sign with a nonempty local part, and a dot strictly inside the
domain part. -/
def emailOk (s : String) : Bool :=
  let cs := s.toList
  cs.all (fun c => !c.isWhitespace) &&
  (cs.count '@' == 1) &&
  !(cs.takeWhile (fun c => c ≠ '@')).isEmpty &&
  (((cs.dropWhile (fun c => c ≠ '@')).drop 1).drop 1).dropLast.contains '.'

/-- JavaScript numeric or-default: v || d, where undefined and 0 are falsy. -/
def jsOrI (v : Option Int) (d : Int) : Int :=
  match v with
  | none => d
  | some x => if x = 0 then d else x

/-- JavaScript string or-default: v || d, where the empty string is falsy. -/
def jsOrS (v d : String) : String :=
  if v = "" then d else v

/-- Row of the users table. -/
structure UserRow where
  id : Nat
  username : String
  email : String
  passwordHash : String
  face : String
  authToken : Option Token
  tokenExpires : Option Nat
  isBanned : Bool
  lastLogin : Option Nat
deriving DecidableEq

/-- Row of the player_data table. -/
structure PlayerRow where
  userId : Nat
  placeId : Int
  posX : Int
  posY : Int
  posZ : Int
  playTime : Int
deriving DecidableEq

/-- The relational store: users, player_data, and the auto-increment counter. -/
structure DB where
  users : List UserRow
  players : List PlayerRow
  nextId : Nat
deriving DecidableEq

/-- Empty store with the auto-increment counter at 1. -/
def DB.init : DB := ⟨[], [], 1⟩

/-- User row inserted by register: lowercased email, default face, no
token, not banned. -/
def mkUserRow (uid : Nat) (username email passwordHash : String) : UserRow :=
  ⟨uid, username, lowerStr email, passwordHash, "default.png", none, none, false, none⟩

/-- player_data row inserted by register: schema defaults place 1,
position (0,5,0), play_time 0. -/
def mkPlayerRow (uid : Nat) : PlayerRow :=
  ⟨uid, 1, 0, 5, 0, 0⟩

inductive RegResult
  | missingFields
  | badUsername
  | shortPassword
  | badEmail
  | conflict
  | ok
deriving DecidableEq

/-- POST /api/register (database path): field and format validation, a
case-insensitive duplicate check on username and email, then the two
inserts into users and player_data. -/
def register (db : DB) (username email password : String) : RegResult × DB :=
  if username = "" ∨ email = "" ∨ password = "" then (.missingFields, db)
  else if isValidUsername username = false then (.badUsername, db)
  else if password.length < 4 then (.shortPassword, db)
  else if emailOk email = false then (.badEmail, db)
  else if db.users.any (fun u =>
      lowerStr u.username == lowerStr username || lowerStr u.email == lowerStr email) then
    (.conflict, db)
  else
    (.ok,
      ⟨db.users ++ [mkUserRow db.nextId username email (hashPw password)],
       db.players ++ [mkPlayerRow db.nextId],
       db.nextId + 1⟩)

inductive LoginResult
  | missingFields
  | invalidCredentials
  | banned
  | ok (token : Token) (userId : Nat) (username : String)
deriving DecidableEq

/-- UPDATE users SET auth_token, token_expires, last_login WHERE id = uid. -/
def applyLoginUpdate (uid : Nat) (tok : Token) (exp now : Nat) (v : UserRow) : UserRow :=
  if v.id = uid then { v with authToken := some tok, tokenExpires := some exp, lastLogin := some now }
  else v

/-- POST /api/login (database path): lookup by username, ban check before
password check, then issue a token and overwrite auth_token,
token_expires (now + 30 days if remember else now + 1 day) and last_login. -/
def login (key now : Nat) (db : DB) (username password : String) (remember : Bool) :
    LoginResult × DB :=
  if username = "" ∨ password = "" then (.missingFields, db)
  else
    match db.users.find? (fun u => u.username == username) with
    | none => (.invalidCredentials, db)
    | some u =>
      if u.isBanned then (.banned, db)
      else if bcryptCompare password u.passwordHash = false then (.invalidCredentials, db)
      else
        let tok := generateToken key u.id u.username now
        let exp := now + (if remember then 30 else 1) * dayMs
        (.ok tok u.id u.username,
         { db with users := db.users.map (applyLoginUpdate u.id tok exp now) })

inductive VerifyResult
  | invalid
  | valid (userId : Nat) (username : String) (face : String)
deriving DecidableEq

/-- POST /api/verify (database path): Token Validator first, then the
storage cross-check SELECT ... WHERE id = decoded.userId AND auth_token =
token, the ban check, and the stored token_expires check. -/
def verify (key now : Nat) (db : DB) (tok : Option Token) : VerifyResult :=
  match tok with
  | none => .invalid
  | some t =>
    match verifyToken key now t with
    | none => .invalid
    | some d =>
      match db.users.find? (fun u => u.id == d.userId && u.authToken == some t) with
      | none => .invalid
      | some u =>
        if u.isBanned then .invalid
        else
          match u.tokenExpires with
          | some e => if e < now then .invalid else .valid u.id u.username (jsOrS u.face "default.png")
          | none => .valid u.id u.username (jsOrS u.face "default.png")

/-- POST /api/verify (in-memory fallback branch): once the Token
Validator accepts, the decoded payload is returned as valid with no
storage cross-check at all. -/
def verifyMemory (key now : Nat) (tok : Option Token) : VerifyResult :=
  match tok with
  | none => .invalid
  | some t =>
    match verifyToken key now t with
    | none => .invalid
    | some d => .valid d.userId d.username "default.png"

/-- Client-side cookies held by the caller. -/
structure Cookies where
  authToken : Option Token
  username : Option String
deriving DecidableEq

/-- POST /api/logout: clears the two cookies and nothing else; the store
is not touched. -/
def logout (db : DB) (c : Cookies) : DB × Cookies :=
  (db, { authToken := none, username := none })

inductive ChangeResult
  | noAuth
  | missingFields
  | badUsername
  | userNotFound
  | badPassword
  | taken
  | ok (newToken : Token)
deriving DecidableEq

/-- UPDATE users SET username, auth_token, token_expires WHERE id = uid
(the two consecutive UPDATEs of the change-username handler combined). -/
def applyRenameUpdate (uid : Nat) (newUsername : String) (tok : Token) (exp : Nat)
    (v : UserRow) : UserRow :=
  if v.id = uid then { v with username := newUsername, authToken := some tok, tokenExpires := some exp }
  else v

/-- POST /api/change-username (database path): authMiddleware token
decode, field and pattern validation, password re-verification, the
taken-by-another check, then the username update and the re-issued token
overwriting auth_token and token_expires with now + 30 days. -/
def changeUsername (key now : Nat) (db : DB) (tok : Option Token)
    (newUsername password : String) : ChangeResult × DB :=
  match tok with
  | none => (.noAuth, db)
  | some t =>
    match verifyToken key now t with
    | none => (.noAuth, db)
    | some d =>
      if newUsername = "" ∨ password = "" then (.missingFields, db)
      else if isValidUsername newUsername = false then (.badUsername, db)
      else
        match db.users.find? (fun u => u.id == d.userId) with
        | none => (.userNotFound, db)
        | some u =>
          if bcryptCompare password u.passwordHash = false then (.badPassword, db)
          else if db.users.any (fun v =>
              lowerStr v.username == lowerStr newUsername && !(v.id == d.userId)) then
            (.taken, db)
          else
            let newTok := generateToken key d.userId newUsername now
            (.ok newTok,
             { db with users := db.users.map (applyRenameUpdate d.userId newUsername newTok (now + 30 * dayMs)) })

inductive GameAuthResult
  | failure (message : String)
  | success (userId : Nat) (username face : String) (placeId posX posY posZ : Int)
deriving DecidableEq

def GameAuthResult.isSuccess : GameAuthResult → Bool
  | .success _ _ _ _ _ _ _ => true
  | .failure _ => false

/-- POST /api/game-auth (database path): Token Validator, then SELECT the
user row joined with player_data by decoded.userId, ban check, and the
flattened snapshot with JavaScript falsy defaults.  The stored auth_token
and token_expires columns are not consulted. -/
def gameAuth (key now : Nat) (db : DB) (tok : Option Token) : GameAuthResult :=
  match tok with
  | none => .failure "Token required"
  | some t =>
    match verifyToken key now t with
    | none => .failure "Invalid token"
    | some d =>
      match db.users.find? (fun u => u.id == d.userId) with
      | none => .failure "User not found"
      | some u =>
        if u.isBanned then .failure "Account banned"
        else
          let p := db.players.find? (fun q => q.userId == u.id)
          .success u.id u.username (jsOrS u.face "default.png")
            (jsOrI (p.map (fun q => q.placeId)) 1)
            (jsOrI (p.map (fun q => q.posX)) 0)
            (jsOrI (p.map (fun q => q.posY)) 5)
            (jsOrI (p.map (fun q => q.posZ)) 0)

/-- POST /api/game-auth (in-memory fallback branch): once the Token
Validator accepts, success is returned from the decoded payload with the
default player state, with no storage lookup, no ban check and no stored
token comparison. -/
def gameAuthMemory (key now : Nat) (tok : Option Token) : GameAuthResult :=
  match tok with
  | none => .failure "Token required"
  | some t =>
    match verifyToken key now t with
    | none => .failure "Invalid token"
    | some d => .success d.userId d.username "default.png" 1 0 5 0

/-- UPDATE player_data SET place_id, pos_x, pos_y, pos_z WHERE user_id =
uid, with the handler's JavaScript falsy defaults.  play_time is not in
the SET clause. -/
def applySaveUpdate (uid : Nat) (placeId posX posY posZ : Option Int) (p : PlayerRow) : PlayerRow :=
  if p.userId = uid then
    { p with placeId := jsOrI placeId 1, posX := jsOrI posX 0,
             posY := jsOrI posY 5, posZ := jsOrI posZ 0 }
  else p

/-- POST /api/save-player (database path): a single UPDATE of
place and position for the row of the given user.  The request's
playTimeDelta field is not read by the handler and play_time is never
written. -/
def savePlayer (db : DB) (userId : Option Nat)
    (placeId posX posY posZ playTimeDelta : Option Int) : DB :=
  match userId with
  | none => db
  | some uid => { db with players := db.players.map (applySaveUpdate uid placeId posX posY posZ) }

/-- Store-mutating requests, for invariant preservation over sequences. -/
inductive Op
  | register (username email password : String)
  | login (now : Nat) (username password : String) (remember : Bool)
  | changeUsername (now : Nat) (tok : Option Token) (newUsername password : String)
  | savePlayer (userId : Option Nat) (placeId posX posY posZ playTimeDelta : Option Int)
  | logout

/-- Effect of one request on the store (verify and game-auth are
read-only; logout touches only cookies). -/
def step (key : Nat) (db : DB) : Op → DB
  | .register u e p => (register db u e p).2
  | .login now u p r => (login key now db u p r).2
  | .changeUsername now t nu pw => (changeUsername key now db t nu pw).2
  | .savePlayer uid pl x y z d => savePlayer db uid pl x y z d
  | .logout => db

/-- Store reached from the empty store by a sequence of requests. -/
def runOps (key : Nat) (ops : List Op) : DB :=
  ops.foldl (step key) DB.init

/-- Every user row has exactly one player_data row. -/
def userPlayerInv (db : DB) : Prop :=
  ∀ u ∈ db.users, db.players.countP (fun p => p.userId == u.id) = 1

/-- Auxiliary invariant: all ids are below the auto-increment counter and
each user has exactly one player row. -/
def DBInv (db : DB) : Prop :=
  (∀ u ∈ db.users, u.id < db.nextId) ∧
  (∀ p ∈ db.players, p.userId < db.nextId) ∧
  userPlayerInv db

/-! Helper lemmas about the store. -/

theorem applyLoginUpdate_id (uid : Nat) (tok : Token) (e n : Nat) (v : UserRow) :
    (applyLoginUpdate uid tok e n v).id = v.id := by
  unfold applyLoginUpdate; split <;> rfl

theorem applyRenameUpdate_id (uid : Nat) (nu : String) (tok : Token) (e : Nat) (v : UserRow) :
    (applyRenameUpdate uid nu tok e v).id = v.id := by
  unfold applyRenameUpdate; split <;> rfl

theorem applySaveUpdate_userId (uid : Nat) (pl x y z : Option Int) (q : PlayerRow) :
    (applySaveUpdate uid pl x y z q).userId = q.userId := by
  unfold applySaveUpdate; split <;> rfl

theorem applySaveUpdate_playTime (uid : Nat) (pl x y z : Option Int) (q : PlayerRow) :
    (applySaveUpdate uid pl x y z q).playTime = q.playTime := by
  unfold applySaveUpdate; split <;> rfl

/-- With distinct user ids, a lookup by the id of a member u together
with an extra condition q finds exactly u when q holds of it. -/
theorem find?_users_key_q {l : List UserRow} (h : (l.map UserRow.id).Nodup)
    {u : UserRow} (hu : u ∈ l) (q : UserRow → Bool) :
    l.find? (fun v => v.id == u.id && q v) = if q u then some u else none := by
  induction l with
  | nil => cases hu
  | cons a tl ih =>
    rw [List.map_cons, List.nodup_cons] at h
    rcases List.mem_cons.mp hu with rfl | hmem
    · by_cases hq : q u = true
      · rw [if_pos hq, List.find?_cons_of_pos _ (by simp [hq])]
      · rw [if_neg hq, List.find?_cons_of_neg _ (by simp [hq])]
        refine List.find?_eq_none.mpr ?_
        intro v hv
        simp only [Bool.and_eq_true, beq_iff_eq, not_and]
        intro hvid
        exact (h.1 (hvid ▸ List.mem_map_of_mem UserRow.id hv)).elim
    · have hne : (a.id == u.id) = false := by
        refine beq_eq_false_iff_ne.mpr ?_
        intro haid
        exact absurd (haid ▸ List.mem_map_of_mem UserRow.id hmem) h.1
      rw [List.find?_cons_of_neg _ (by simp [hne])]
      exact ih h.2 hmem

/-- With distinct user ids, a lookup by the id of a member u finds u. -/
theorem find?_users_key {l : List UserRow} (h : (l.map UserRow.id).Nodup)
    {u : UserRow} (hu : u ∈ l) :
    l.find? (fun v => v.id == u.id) = some u := by
  induction l with
  | nil => cases hu
  | cons a tl ih =>
    rw [List.map_cons, List.nodup_cons] at h
    rcases List.mem_cons.mp hu with rfl | hmem
    · rw [List.find?_cons_of_pos _ (by simp)]
    · have hne : (a.id == u.id) = false := by
        refine beq_eq_false_iff_ne.mpr ?_
        intro haid
        exact absurd (haid ▸ List.mem_map_of_mem UserRow.id hmem) h.1
      rw [List.find?_cons_of_neg _ (by simp [hne])]
      exact ih h.2 hmem

/-- Counting player rows by user id is unchanged by a row map that
preserves user ids. -/
theorem countP_map_userId {l : List PlayerRow} {g : PlayerRow → PlayerRow}
    (hg : ∀ p, (g p).userId = p.userId) (k : Nat) :
    (l.map g).countP (fun p => p.userId == k) = l.countP (fun p => p.userId == k) := by
  induction l with
  | nil => rfl
  | cons a tl ih => simp [List.countP_cons, hg, ih]

theorem dbinv_map_users {db : DB} {f : UserRow → UserRow}
    (hf : ∀ v, (f v).id = v.id) (h : DBInv db) :
    DBInv { db with users := db.users.map f } := by
  obtain ⟨h1, h2, h3⟩ := h
  refine ⟨?_, h2, ?_⟩
  · intro u hu
    obtain ⟨v, hv, rfl⟩ := List.mem_map.mp hu
    rw [hf]
    exact h1 v hv
  · intro u hu
    obtain ⟨v, hv, rfl⟩ := List.mem_map.mp hu
    show db.players.countP (fun p => p.userId == (f v).id) = 1
    rw [hf]
    exact h3 v hv

theorem dbinv_map_players {db : DB} {g : PlayerRow → PlayerRow}
    (hg : ∀ p, (g p).userId = p.userId) (h : DBInv db) :
    DBInv { db with players := db.players.map g } := by
  obtain ⟨h1, h2, h3⟩ := h
  refine ⟨h1, ?_, ?_⟩
  · intro p hp
    obtain ⟨q, hq, rfl⟩ := List.mem_map.mp hp
    rw [hg]
    exact h2 q hq
  · intro u hu
    show (db.players.map g).countP (fun p => p.userId == u.id) = 1
    rw [countP_map_userId hg]
    exact h3 u hu

theorem dbinv_register (db : DB) (un em pw : String) (h : DBInv db) :
    DBInv (register db un em pw).2 := by
  obtain ⟨h1, h2, h3⟩ := h
  unfold register
  repeat' split
  case isTrue => exact ⟨h1, h2, h3⟩
  case isTrue => exact ⟨h1, h2, h3⟩
  case isTrue => exact ⟨h1, h2, h3⟩
  case isTrue => exact ⟨h1, h2, h3⟩
  case isTrue => exact ⟨h1, h2, h3⟩
  case isFalse =>
    refine ⟨?_, ?_, ?_⟩
    · intro v hv
      rcases List.mem_append.mp hv with hv | hv
      · exact Nat.lt_succ_of_lt (h1 v hv)
      · rw [List.mem_singleton] at hv
        subst hv
        exact Nat.lt_succ_self _
    · intro q hq
      rcases List.mem_append.mp hq with hq | hq
      · exact Nat.lt_succ_of_lt (h2 q hq)
      · rw [List.mem_singleton] at hq
        subst hq
        exact Nat.lt_succ_self _
    · intro v hv
      show (db.players ++ [mkPlayerRow db.nextId]).countP (fun p => p.userId == v.id) = 1
      rw [List.countP_append]
      rcases List.mem_append.mp hv with hv | hv
      · rw [h3 v hv]
        have hvlt := h1 v hv
        have : ((mkPlayerRow db.nextId).userId == v.id) = false := by
          refine beq_eq_false_iff_ne.mpr ?_
          show db.nextId ≠ v.id
          omega
        simp [List.countP_cons, this]
      · rw [List.mem_singleton] at hv
        subst hv
        have hz : db.players.countP
            (fun p => p.userId == (mkUserRow db.nextId un em (hashPw pw)).id) = 0 := by
          refine List.countP_eq_zero.mpr ?_
          intro q hq
          have := h2 q hq
          simp only [mkUserRow, beq_iff_eq]
          omega
        rw [hz]
        simp [List.countP_cons, mkUserRow, mkPlayerRow]

theorem dbinv_step (key : Nat) (db : DB) (op : Op) (h : DBInv db) :
    DBInv (step key db op) := by
  cases op with
  | register un em pw => exact dbinv_register db un em pw h
  | login now un pw r =>
    show DBInv (login key now db un pw r).2
    unfold login
    repeat' split
    all_goals first
      | exact h
      | exact dbinv_map_users (fun v => applyLoginUpdate_id _ _ _ _ v) h
  | changeUsername now t nu pw =>
    show DBInv (changeUsername key now db t nu pw).2
    unfold changeUsername
    repeat' split
    all_goals first
      | exact h
      | exact dbinv_map_users (fun v => applyRenameUpdate_id _ _ _ _ v) h
  | savePlayer uid pl x y z d =>
    show DBInv (savePlayer db uid pl x y z d)
    unfold savePlayer
    split
    · exact h
    · exact dbinv_map_players (fun q => applySaveUpdate_userId _ _ _ _ _ q) h
  | logout => exact h

theorem dbinv_init : DBInv DB.init := by
  refine ⟨?_, ?_, ?_⟩ <;> intro x hx <;> cases hx

theorem dbinv_runOps (key : Nat) (ops : List Op) : DBInv (runOps key ops) := by
  unfold runOps
  have main : ∀ (l : List Op) (db : DB), DBInv db → DBInv (l.foldl (step key) db) := by
    intro l
    induction l with
    | nil => intro db h; exact h
    | cons o tl ih =>
      intro db h
      exact ih _ (dbinv_step key db o h)
  exact main ops DB.init dbinv_init

/-! Concrete sample store used by witnesses and counterexamples. -/

/-- Token from a first login of alice (earlier iat). -/
def aliceTokenA : Token := ⟨1, "alice", 3, 1⟩

/-- Token from a second login of alice (later iat); the stored one. -/
def aliceTokenB : Token := ⟨1, "alice", 5, 1⟩

/-- User row for alice holding the second token. -/
def aliceRow : UserRow :=
  ⟨1, "alice", "alice@x.com", hashPw "pass1234", "default.png",
   some aliceTokenB, some (5 + 30 * dayMs), false, some 5⟩

/-- Player row for alice with the schema defaults. -/
def alicePlayer : PlayerRow := ⟨1, 1, 0, 5, 0, 0⟩

/-- Store with the single user alice. -/
def dbAlice : DB := ⟨[aliceRow], [alicePlayer], 2⟩

/-- C8: logout changes no server-side state: it returns the store
unchanged and clears only the caller's cookies, so any retained copy of
the bearer token verifies against the store exactly as before the
logout, until a later login overwrites the stored token or the stored
expiry passes. -/
theorem logout_changes_no_server_state (db : DB) (c : Cookies) (key now : Nat)
    (t : Option Token) :
    (logout db c).1 = db ∧
    (logout db c).2 = ⟨none, none⟩ ∧
    verify key now (logout db c).1 t = verify key now db t ∧
    gameAuth key now (logout db c).1 t = gameAuth key now db t :=
  ⟨rfl, rfl, rfl, rfl⟩

/-- C10: in the in-memory fallback mode, verify returns valid, and
game-auth returns success with the default player state, for exactly the
tokens that pass the cryptographic signature and embedded-expiry check;
since neither function consults any store, no stored-token comparison,
stored-expiry check or ban check takes place, so supersession by a later
login and banning never invalidate a token in this mode. -/
theorem memory_mode_accepts_on_crypto_alone (key now : Nat) (t : Token) :
    verifyMemory key now none = .invalid ∧
    gameAuthMemory key now none = .failure "Token required" ∧
    verifyMemory key now (some t) =
      (if t.key = key ∧ now < t.iat + cryptoWindowMs then
        .valid t.userId t.username "default.png" else .invalid) ∧
    gameAuthMemory key now (some t) =
      (if t.key = key ∧ now < t.iat + cryptoWindowMs then
        .success t.userId t.username "default.png" 1 0 5 0 else .failure "Invalid token") := by
  by_cases hc : t.key = key ∧ now < t.iat + cryptoWindowMs <;>
    exact ⟨rfl, rfl, by simp [verifyMemory, verifyToken, hc], by simp [gameAuthMemory, verifyToken, hc]⟩

/-- C6: registering with a username or email that already exists,
compared case-insensitively on both fields, fails with the conflict
outcome and returns the store unchanged: no second user row is created. -/
theorem register_duplicate_conflict_store_unchanged (db : DB) (un em pw : String)
    (hvalid : isValidUsername un = true) (hpw : 4 ≤ pw.length)
    (hemail : emailOk em = true)
    (hdup : ∃ u ∈ db.users, lowerStr u.username = lowerStr un ∨ lowerStr u.email = lowerStr em) :
    register db un em pw = (.conflict, db) := by
  have hun : un ≠ "" := by
    intro h
    subst h
    exact absurd hvalid (by decide)
  have hem : em ≠ "" := by
    intro h
    subst h
    exact absurd hemail (by decide)
  have hpw0 : pw ≠ "" := by
    intro h
    subst h
    simp at hpw
  obtain ⟨u, hu, hd⟩ := hdup
  have hany : db.users.any (fun v =>
      lowerStr v.username == lowerStr un || lowerStr v.email == lowerStr em) = true := by
    refine List.any_eq_true.mpr ⟨u, hu, ?_⟩
    rcases hd with hd | hd <;> simp [hd]
  unfold register
  rw [if_neg (by push_neg; exact ⟨hun, hem, hpw0⟩)]
  rw [if_neg (by simp [hvalid])]
  rw [if_neg (by omega)]
  rw [if_neg (by simp [hemail])]
  rw [if_pos hany]

/-- Witness for C6: a second registration under the same username in a
different case hits the conflict branch and leaves the store unchanged. -/
theorem register_duplicate_conflict_witness :
    register dbAlice "ALICE" "other@x.com" "zzzz" = (.conflict, dbAlice) := by
  apply register_duplicate_conflict_store_unchanged
  · decide
  · decide
  · decide
  · exact ⟨aliceRow, List.mem_singleton.mpr rfl, Or.inl (by decide)⟩

/-- Mapping the player rows through the save-player update changes
neither user ids nor play-time accumulators. -/
theorem map_pair_applySave (uid : Nat) (pl x y z : Option Int) (l : List PlayerRow) :
    (l.map (applySaveUpdate uid pl x y z)).map (fun p => (p.userId, p.playTime)) =
    l.map (fun p => (p.userId, p.playTime)) := by
  induction l with
  | nil => rfl
  | cons a tl ih =>
    simp [List.map_cons, ih, applySaveUpdate_userId, applySaveUpdate_playTime]

/-- C2 (amended): save-player updates place and position of the
addressed user's existing player row but ignores the request's
playTimeDelta entirely: the stored play-time accumulator of every row is
left unchanged, never increased by the delta, never overwritten, never
decreased; in particular two successive calls with deltas 10 and 5 leave
the accumulator at its prior value rather than prior plus 15. -/
theorem savePlayer_ignores_playTimeDelta (db : DB) (uid : Option Nat)
    (pl x y z d : Option Int) :
    ((savePlayer db uid pl x y z d).players.map (fun p => (p.userId, p.playTime)) =
      db.players.map (fun p => (p.userId, p.playTime))) ∧
    (savePlayer db uid pl x y z d).users = db.users ∧
    (savePlayer db uid pl x y z d).nextId = db.nextId ∧
    (∀ uid0, uid = some uid0 → ∀ p ∈ db.players, p.userId = uid0 →
      ({ p with placeId := jsOrI pl 1, posX := jsOrI x 0,
                posY := jsOrI y 5, posZ := jsOrI z 0 } : PlayerRow)
        ∈ (savePlayer db uid pl x y z d).players) := by
  cases uid with
  | none =>
    refine ⟨rfl, rfl, rfl, ?_⟩
    intro uid0 h
    cases h
  | some uid1 =>
    refine ⟨map_pair_applySave uid1 pl x y z db.players, rfl, rfl, ?_⟩
    intro uid0 h p hp hpu
    obtain rfl : uid1 = uid0 := by injection h
    have hmem := List.mem_map_of_mem (applySaveUpdate uid1 pl x y z) hp
    have hform : applySaveUpdate uid1 pl x y z p =
        { p with placeId := jsOrI pl 1, posX := jsOrI x 0,
                 posY := jsOrI y 5, posZ := jsOrI z 0 } := by
      unfold applySaveUpdate
      rw [if_pos hpu]
    rw [hform] at hmem
    exact hmem

/-- Witness for C2 (amended): a concrete save call updates alice's place
and position while leaving the play-time accumulator untouched. -/
theorem savePlayer_ignores_playTimeDelta_witness :
    ({ alicePlayer with placeId := jsOrI (some 2) 1, posX := jsOrI (some 3) 0,
                        posY := jsOrI (some 4) 5, posZ := jsOrI (some 7) 0 } : PlayerRow)
      ∈ (savePlayer dbAlice (some 1) (some 2) (some 3) (some 4) (some 7) (some 10)).players :=
  (savePlayer_ignores_playTimeDelta dbAlice (some 1) (some 2) (some 3) (some 4)
    (some 7) (some 10)).2.2.2 1 rfl alicePlayer (List.mem_singleton.mpr rfl) rfl

/-- Counterexample for C2 as stated: two save-player calls carrying
playTimeDelta 10 and then 5, on a store whose accumulator is 0, leave
the accumulator at 0, not at the claimed prior plus 15. -/
theorem savePlayer_playTime_not_added_counterexample :
    ((savePlayer (savePlayer dbAlice (some 1) (some 2) (some 3) (some 4) (some 7) (some 10))
        (some 1) (some 2) (some 3) (some 4) (some 7) (some 5)).players.map
          (fun p => p.playTime) = [0]) ∧
    ((savePlayer (savePlayer dbAlice (some 1) (some 2) (some 3) (some 4) (some 7) (some 10))
        (some 1) (some 2) (some 3) (some 4) (some 7) (some 5)).players.map
          (fun p => p.playTime) ≠ [0 + 10 + 5]) :=
  ⟨by decide, by decide⟩

/-- C7: a successful registration inserts the user row and its
player-state row together and a failed one inserts neither, so after any
sequence of requests starting from the empty store every user row has
exactly one player-state row. -/
theorem register_atomic_user_player_invariant :
    (∀ key ops, userPlayerInv (runOps key ops)) ∧
    (∀ db un em pw, (register db un em pw).2 = db ∨
      (register db un em pw).2 =
        ⟨db.users ++ [mkUserRow db.nextId un em (hashPw pw)],
         db.players ++ [mkPlayerRow db.nextId], db.nextId + 1⟩) := by
  constructor
  · intro key ops
    exact (dbinv_runOps key ops).2.2
  · intro db un em pw
    unfold register
    repeat' split
    all_goals first
      | exact Or.inl rfl
      | exact Or.inr rfl

/-- C3: on the database path, verify returns a valid result exactly when
all four conditions hold simultaneously: (a) the token is
cryptographically well-formed with its embedded expiry not passed, (b)
it equals the user's stored current token, (c) the stored expiry has not
passed, and (d) the user is not banned; any failure yields the uniform
invalid result. -/
theorem verify_valid_iff_four_conditions (key now : Nat) (db : DB) (t : Token)
    (u : UserRow) (hnodup : (db.users.map UserRow.id).Nodup) (hu : u ∈ db.users)
    (hid : u.id = t.userId) :
    verify key now db (some t) ≠ .invalid ↔
      ((t.key = key ∧ now < t.iat + cryptoWindowMs) ∧
       u.authToken = some t ∧
       (∀ e, u.tokenExpires = some e → now ≤ e) ∧
       u.isBanned = false) := by
  by_cases hc : t.key = key ∧ now < t.iat + cryptoWindowMs
  · have hv : verifyToken key now t = some t := by
      unfold verifyToken
      rw [if_pos hc]
    have hfind := find?_users_key_q hnodup hu (fun v => v.authToken == some t)
    rw [hid] at hfind
    by_cases hat : u.authToken = some t
    · rw [if_pos (by simp [hat])] at hfind
      have hV : verify key now db (some t) =
          (if u.isBanned then .invalid
           else
             match u.tokenExpires with
             | some e => if e < now then .invalid else .valid u.id u.username (jsOrS u.face "default.png")
             | none => .valid u.id u.username (jsOrS u.face "default.png")) := by
        simp only [verify, hv, hfind]
      rw [hV]
      by_cases hb : u.isBanned
      · simp [hb, hat, hc]
      · cases he : u.tokenExpires with
        | none => simp [hb, hat, hc, he]
        | some e =>
          by_cases hlt : e < now
          · simp only [if_neg hb, he, if_pos hlt]
            constructor
            · intro hfalse
              exact absurd rfl hfalse
            · rintro ⟨-, -, hle, -⟩
              have := hle e rfl
              omega
          · simp only [if_neg hb, he, if_neg hlt]
            constructor
            · intro _
              refine ⟨hc, hat, ?_, by simpa using hb⟩
              intro e2 he2
              injection he2 with he2
              omega
            · intro _
              simp
    · rw [if_neg (by simp [hat])] at hfind
      have hV : verify key now db (some t) = .invalid := by
        simp only [verify, hv, hfind]
      simp [hV, hat]
  · have hv : verifyToken key now t = none := by
      unfold verifyToken
      rw [if_neg hc]
    have hV : verify key now db (some t) = .invalid := by
      simp only [verify, hv]
    simp [hV, hc]

/-- Witness for C3: alice's currently stored, unexpired token for an
unbanned account verifies as valid. -/
theorem verify_valid_iff_witness :
    verify 1 10 dbAlice (some aliceTokenB) ≠ .invalid :=
  (verify_valid_iff_four_conditions 1 10 dbAlice aliceTokenB aliceRow (by decide)
      (List.mem_singleton.mpr rfl) rfl).mpr
    ⟨⟨rfl, by decide⟩, rfl,
     by
       intro e he
       have hd : dayMs = 86400000 := rfl
       simp [aliceRow] at he
       omega,
     rfl⟩

/-- C1 (amended): game-auth decides on cryptographic token validity plus
user existence plus the ban check only; for a user row present in the
store it succeeds exactly when the signature and embedded expiry pass
and the user is not banned, with no comparison against the stored
current token and no stored-expiry check, so every banned user fails
while a superseded but still signed token is accepted. -/
theorem gameAuth_crypto_and_ban_only (key now : Nat) (db : DB) (t : Token)
    (u : UserRow) (hnodup : (db.users.map UserRow.id).Nodup) (hu : u ∈ db.users)
    (hid : u.id = t.userId) :
    (gameAuth key now db (some t)).isSuccess = true ↔
      ((t.key = key ∧ now < t.iat + cryptoWindowMs) ∧ u.isBanned = false) := by
  by_cases hc : t.key = key ∧ now < t.iat + cryptoWindowMs
  · have hv : verifyToken key now t = some t := by
      unfold verifyToken
      rw [if_pos hc]
    have hfind := find?_users_key hnodup hu
    rw [hid] at hfind
    by_cases hb : u.isBanned
    · simp only [gameAuth, hv, hfind, if_pos hb]
      simp [GameAuthResult.isSuccess, hb, hc]
    · simp only [gameAuth, hv, hfind, if_neg hb]
      simp [GameAuthResult.isSuccess, hb, hc]
  · have hv : verifyToken key now t = none := by
      unfold verifyToken
      rw [if_neg hc]
    simp only [gameAuth, hv]
    simp [GameAuthResult.isSuccess, hc]

/-- Witness for C1 (amended): the superseded first-login token still
makes game-auth succeed for the unbanned alice. -/
theorem gameAuth_crypto_and_ban_only_witness :
    (gameAuth 1 10 dbAlice (some aliceTokenA)).isSuccess = true :=
  (gameAuth_crypto_and_ban_only 1 10 dbAlice aliceTokenA aliceRow (by decide)
      (List.mem_singleton.mpr rfl) rfl).mpr ⟨⟨rfl, by decide⟩, rfl⟩

/-- Counterexample for C1 as stated: the first-login token differs from
alice's stored current token, so the full verify semantics reject it,
yet game-auth grants gameplay access on its cryptographic validity
alone. -/
theorem gameAuth_superseded_token_counterexample :
    aliceRow.authToken = some aliceTokenB ∧
    aliceTokenA ≠ aliceTokenB ∧
    verify 1 10 dbAlice (some aliceTokenA) = .invalid ∧
    gameAuth 1 10 dbAlice (some aliceTokenA) = .success 1 "alice" "default.png" 1 0 5 0 :=
  ⟨rfl, by decide, by decide, by decide⟩

/-- C4: once a second login succeeds for a user, the token issued by an
earlier login at a different instant no longer matches the stored
current token, so verify rejects it even though it is still
cryptographically valid: at most one live token per user. -/
theorem second_login_supersedes_first_token (key t2 now : Nat) (db db' : DB)
    (un pw : String) (rem : Bool) (tok1 tok2 : Token) (uid : Nat) (uname : String)
    (hlogin : login key t2 db un pw rem = (.ok tok2 uid uname, db'))
    (hid : tok1.userId = uid) (hiat : tok1.iat ≠ t2)
    (hkey : tok1.key = key) (hwin : now < tok1.iat + cryptoWindowMs) :
    verifyToken key now tok1 = some tok1 ∧
    verify key now db' (some tok1) = .invalid := by
  have hvt : verifyToken key now tok1 = some tok1 := by
    unfold verifyToken
    rw [if_pos ⟨hkey, hwin⟩]
  refine ⟨hvt, ?_⟩
  unfold login at hlogin
  split at hlogin
  · simp at hlogin
  · split at hlogin
    · simp at hlogin
    · rename_i u hfound
      split at hlogin
      · simp at hlogin
      · split at hlogin
        · simp at hlogin
        · simp only [Prod.mk.injEq, LoginResult.ok.injEq] at hlogin
          obtain ⟨⟨htok, huid, huname⟩, hdb⟩ := hlogin
          subst hdb
          subst huid
          have hfind : (db.users.map (applyLoginUpdate u.id (generateToken key u.id u.username t2)
              (t2 + (if rem then 30 else 1) * dayMs) t2)).find?
              (fun v => v.id == tok1.userId && v.authToken == some tok1) = none := by
            refine List.find?_eq_none.mpr ?_
            intro v hv
            obtain ⟨w, hw, rfl⟩ := List.mem_map.mp hv
            by_cases hwid : w.id = u.id
            · intro hcontra
              simp only [applyLoginUpdate, if_pos hwid, Bool.and_eq_true, beq_iff_eq] at hcontra
              obtain ⟨-, h2⟩ := hcontra
              injection h2 with h3
              refine hiat ?_
              rw [← h3]
              rfl
            · intro hcontra
              simp only [applyLoginUpdate, if_neg hwid, Bool.and_eq_true, beq_iff_eq] at hcontra
              exact hwid (hcontra.1.trans hid)
          simp only [verify, hvt, hfind]

/-- Witness for C4: after alice logs in again at time 5, her earlier
token from time 3 is still cryptographically valid but verify rejects
it. -/
theorem second_login_supersedes_witness :
    verifyToken 1 10 aliceTokenA = some aliceTokenA ∧
    verify 1 10 (login 1 5 dbAlice "alice" "pass1234" true).2 (some aliceTokenA) = .invalid :=
  second_login_supersedes_first_token 1 5 10 dbAlice
    (login 1 5 dbAlice "alice" "pass1234" true).2 "alice" "pass1234" true
    aliceTokenA ⟨1, "alice", 5, 1⟩ 1 "alice" (by decide) rfl (by decide) rfl (by decide)

/-- C9: a successful login issues a token whose cryptographic validity
window is the fixed thirty-day constant counted from issuance,
independent of the remember flag, while the stored effective expiry is
now plus 30 days when remember is set and now plus 1 day otherwise. -/
theorem login_crypto_window_fixed_stored_expiry_split (key now : Nat) (db db' : DB)
    (un pw : String) (rem : Bool) (tok : Token) (uid : Nat) (uname : String)
    (hlogin : login key now db un pw rem = (.ok tok uid uname, db')) :
    tok = generateToken key uid uname now ∧
    (∀ n, (verifyToken key n tok).isSome = true ↔ n < now + cryptoWindowMs) ∧
    (∃ v ∈ db'.users, v.id = uid ∧ v.authToken = some tok ∧
      v.tokenExpires = some (now + (if rem then 30 else 1) * dayMs)) := by
  unfold login at hlogin
  split at hlogin
  · simp at hlogin
  · split at hlogin
    · simp at hlogin
    · rename_i u hfound
      split at hlogin
      · simp at hlogin
      · split at hlogin
        · simp at hlogin
        · simp only [Prod.mk.injEq, LoginResult.ok.injEq] at hlogin
          obtain ⟨⟨htok, huid, huname⟩, hdb⟩ := hlogin
          subst hdb
          subst huid
          subst huname
          subst htok
          refine ⟨rfl, ?_, ?_⟩
          · intro n
            unfold verifyToken generateToken
            by_cases hn : n < now + cryptoWindowMs
            · simp [hn]
            · simp [hn]
          · refine ⟨applyLoginUpdate u.id (generateToken key u.id u.username now)
                (now + (if rem then 30 else 1) * dayMs) now u,
              List.mem_map_of_mem _ (List.mem_of_find?_eq_some hfound), ?_, ?_, ?_⟩
            · exact applyLoginUpdate_id _ _ _ _ u
            · unfold applyLoginUpdate
              rw [if_pos rfl]
            · unfold applyLoginUpdate
              rw [if_pos rfl]

/-- Witness for C9: a concrete remember-false login stores a one-day
effective expiry while the issued token itself carries the fixed
thirty-day cryptographic window. -/
theorem login_crypto_window_witness :
    (⟨1, "alice", 100, 1⟩ : Token) = generateToken 1 1 "alice" 100 ∧
    (∀ n, (verifyToken 1 n (⟨1, "alice", 100, 1⟩ : Token)).isSome = true ↔
      n < 100 + cryptoWindowMs) ∧
    (∃ v ∈ (login 1 100 dbAlice "alice" "pass1234" false).2.users, v.id = 1 ∧
      v.authToken = some ⟨1, "alice", 100, 1⟩ ∧
      v.tokenExpires = some (100 + (if false then 30 else 1) * dayMs)) :=
  login_crypto_window_fixed_stored_expiry_split 1 100 dbAlice
    (login 1 100 dbAlice "alice" "pass1234" false).2 "alice" "pass1234" false
    ⟨1, "alice", 100, 1⟩ 1 "alice" (by decide)

/-- Mapping user rows through an id-preserving update leaves the list of
ids unchanged. -/
theorem map_id_of_preserve {l : List UserRow} {f : UserRow → UserRow}
    (hf : ∀ v, (f v).id = v.id) : (l.map f).map UserRow.id = l.map UserRow.id := by
  induction l with
  | nil => rfl
  | cons a tl ih => simp [hf, ih]

/-- C5: change-username succeeds exactly when the re-verified current
password is correct and the new username is pattern-valid and not taken
by another user; on success it re-issues a token embedding the new
username and overwrites the stored current token with it, so the newly
issued token verifies as valid under the new username while the
pre-rename token is rejected. -/
theorem changeUsername_reissues_token_invalidates_old (key now : Nat) (db : DB)
    (t : Token) (u : UserRow) (newU pwd : String)
    (hnodup : (db.users.map UserRow.id).Nodup) (hu : u ∈ db.users)
    (hid : u.id = t.userId) (hkey : t.key = key)
    (hwin : now < t.iat + cryptoWindowMs) (hban : u.isBanned = false)
    (hpwne : pwd ≠ "") :
    ((∃ tk db2, changeUsername key now db (some t) newU pwd = (.ok tk, db2)) ↔
      (isValidUsername newU = true ∧ bcryptCompare pwd u.passwordHash = true ∧
       ∀ v ∈ db.users, v.id ≠ u.id → lowerStr v.username ≠ lowerStr newU)) ∧
    (∀ tk db2, changeUsername key now db (some t) newU pwd = (.ok tk, db2) →
      tk = generateToken key u.id newU now ∧
      verify key now db2 (some tk) = .valid u.id newU (jsOrS u.face "default.png") ∧
      (t.iat ≠ now → verify key now db2 (some t) = .invalid)) := by
  have hvt : verifyToken key now t = some t := by
    unfold verifyToken
    rw [if_pos ⟨hkey, hwin⟩]
  have hfindu := find?_users_key hnodup hu
  rw [hid] at hfindu
  have hCU : changeUsername key now db (some t) newU pwd =
      (if newU = "" ∨ pwd = "" then (.missingFields, db)
       else if isValidUsername newU = false then (.badUsername, db)
       else if bcryptCompare pwd u.passwordHash = false then (.badPassword, db)
       else if db.users.any (fun v =>
           lowerStr v.username == lowerStr newU && !(v.id == t.userId)) then (.taken, db)
       else (.ok (generateToken key t.userId newU now),
             { db with users := db.users.map (applyRenameUpdate t.userId newU
                 (generateToken key t.userId newU now) (now + 30 * dayMs)) })) := by
    simp only [changeUsername, hvt, hfindu]
  constructor
  · constructor
    · rintro ⟨tk, db2, heq⟩
      rw [hCU] at heq
      split at heq
      · simp at heq
      · split at heq
        · simp at heq
        · split at heq
          · simp at heq
          · split at heq
            · simp at heq
            · rename_i h1 h2 h3 h4
              refine ⟨by simpa using h2, by simpa using h3, ?_⟩
              intro v hv hvne heqlow
              apply h4
              refine List.any_eq_true.mpr ⟨v, hv, ?_⟩
              simp only [Bool.and_eq_true, beq_iff_eq, Bool.not_eq_true', beq_eq_false_iff_ne]
              exact ⟨heqlow, fun hh => hvne (hh.trans hid.symm)⟩
    · rintro ⟨hval, hcmp, htaken⟩
      rw [hCU]
      have c1 : ¬(newU = "" ∨ pwd = "") := by
        rintro (h | h)
        · subst h
          exact absurd hval (by decide)
        · exact hpwne h
      have c2 : ¬(isValidUsername newU = false) := by simp [hval]
      have c3 : ¬(bcryptCompare pwd u.passwordHash = false) := by simp [hcmp]
      have c4 : ¬(db.users.any (fun v =>
          lowerStr v.username == lowerStr newU && !(v.id == t.userId)) = true) := by
        rw [List.any_eq_true]
        rintro ⟨v, hv, hvp⟩
        rw [Bool.and_eq_true, beq_iff_eq] at hvp
        obtain ⟨hlow, hne⟩ := hvp
        rw [Bool.not_eq_true', beq_eq_false_iff_ne] at hne
        have hvneu : v.id ≠ u.id := fun hh => hne (hh.trans hid)
        exact htaken v hv hvneu hlow
      rw [if_neg c1, if_neg c2, if_neg c3, if_neg c4]
      exact ⟨_, _, rfl⟩
  · intro tk db2 heq
    rw [hCU] at heq
    split at heq
    · simp at heq
    · split at heq
      · simp at heq
      · split at heq
        · simp at heq
        · split at heq
          · simp at heq
          · simp only [Prod.mk.injEq, ChangeResult.ok.injEq] at heq
            obtain ⟨htk, hdb2⟩ := heq
            subst hdb2
            subst htk
            refine ⟨by rw [hid], ?_, ?_⟩
            · have hvtE : verifyToken key now (generateToken key t.userId newU now) =
                  some (generateToken key t.userId newU now) := by
                unfold verifyToken
                rw [if_pos ⟨rfl, Nat.lt_add_of_pos_right (by decide)⟩]
              have hnodup2 : ((db.users.map (applyRenameUpdate t.userId newU
                  (generateToken key t.userId newU now) (now + 30 * dayMs))).map UserRow.id).Nodup := by
                rw [map_id_of_preserve (fun v => applyRenameUpdate_id _ _ _ _ v)]
                exact hnodup
              have hmem2 := List.mem_map_of_mem (applyRenameUpdate t.userId newU
                  (generateToken key t.userId newU now) (now + 30 * dayMs)) hu
              have hfind2 := find?_users_key_q hnodup2 hmem2
                (fun v => v.authToken == some (generateToken key t.userId newU now))
              have huRow2 : applyRenameUpdate t.userId newU
                  (generateToken key t.userId newU now) (now + 30 * dayMs) u =
                  { u with username := newU,
                           authToken := some (generateToken key t.userId newU now),
                           tokenExpires := some (now + 30 * dayMs) } := by
                unfold applyRenameUpdate
                rw [if_pos hid]
              have hid2 : (applyRenameUpdate t.userId newU
                  (generateToken key t.userId newU now) (now + 30 * dayMs) u).id =
                  (generateToken key t.userId newU now).userId := by
                rw [applyRenameUpdate_id]
                exact hid
              rw [hid2, huRow2] at hfind2
              rw [if_pos (by simp)] at hfind2
              have hnlt : ¬(now + 30 * dayMs < now) := by omega
              simp only [verify, hvtE, hfind2]
              simp [hban, hnlt]
            · intro hneiat
              have hfind3 : (db.users.map (applyRenameUpdate t.userId newU
                  (generateToken key t.userId newU now) (now + 30 * dayMs))).find?
                  (fun v => v.id == t.userId && v.authToken == some t) = none := by
                refine List.find?_eq_none.mpr ?_
                intro v hv
                obtain ⟨w, hw, rfl⟩ := List.mem_map.mp hv
                by_cases hwid : w.id = t.userId
                · intro hcontra
                  simp only [applyRenameUpdate, if_pos hwid, Bool.and_eq_true,
                    beq_iff_eq] at hcontra
                  obtain ⟨-, h2⟩ := hcontra
                  injection h2 with h3
                  refine hneiat ?_
                  rw [← h3]
                  rfl
                · intro hcontra
                  simp only [applyRenameUpdate, if_neg hwid, Bool.and_eq_true,
                    beq_iff_eq] at hcontra
                  exact hwid hcontra.1
              simp only [verify, hvt, hfind3]

/-- Witness for C5: alice renames to alice2 with the correct password;
the re-issued token verifies as valid with the new username and the
pre-rename token is rejected. -/
theorem changeUsername_reissues_witness :
    verify 1 20 (changeUsername 1 20 dbAlice (some aliceTokenB) "alice2" "pass1234").2
      (some (generateToken 1 1 "alice2" 20)) = .valid 1 "alice2" (jsOrS aliceRow.face "default.png") ∧
    verify 1 20 (changeUsername 1 20 dbAlice (some aliceTokenB) "alice2" "pass1234").2
      (some aliceTokenB) = .invalid := by
  have h := changeUsername_reissues_token_invalidates_old 1 20 dbAlice aliceTokenB
    aliceRow "alice2" "pass1234" (by decide) (List.mem_singleton.mpr rfl) rfl rfl
    (by decide) rfl (by decide)
  have heq : changeUsername 1 20 dbAlice (some aliceTokenB) "alice2" "pass1234" =
      (.ok (generateToken 1 1 "alice2" 20),
       (changeUsername 1 20 dbAlice (some aliceTokenB) "alice2" "pass1234").2) := by decide
  have h2 := h.2 (generateToken 1 1 "alice2" 20)
    (changeUsername 1 20 dbAlice (some aliceTokenB) "alice2" "pass1234").2 heq
  exact ⟨h2.2.1, h2.2.2 (by decide)⟩
